import Mathlib

/-!
Shallow embedding of the mediasoup signaling server (src/server.js).

JavaScript `Map`s are modelled as association lists with the first
occurrence of a key authoritative (`mapGet`), `Map.set` replacing in
place or appending (`mapSet`), and `Map.delete` removing the key
(`mapDelete`).  JavaScript `Set`s of user ids are modelled as lists in
insertion order without duplicates.

Media-engine handles (transports, producers, consumers) carry a
`closeFails` flag recording whether their `close()` call throws; the
handlers record every `close()` attempt as an event, so ordering and
duplication of close calls can be stated.  An uncaught exception in a
handler is modelled by an `aborted` boolean in the handler's result.
-/

def mapGet {α : Type} (m : List (Nat × α)) (k : Nat) : Option α :=
  match m with
  | [] => none
  | (k', v) :: rest => if k' = k then some v else mapGet rest k

def mapHas {α : Type} (m : List (Nat × α)) (k : Nat) : Bool :=
  (mapGet m k).isSome

def mapSet {α : Type} (m : List (Nat × α)) (k : Nat) (v : α) : List (Nat × α) :=
  match m with
  | [] => [(k, v)]
  | (k', v') :: rest => if k' = k then (k, v) :: rest else (k', v') :: mapSet rest k v

def mapDelete {α : Type} (m : List (Nat × α)) (k : Nat) : List (Nat × α) :=
  match m with
  | [] => []
  | (k', v) :: rest => if k' = k then mapDelete rest k else (k', v) :: mapDelete rest k

def setDelete (set : List Nat) (u : Nat) : List Nat :=
  match set with
  | [] => []
  | x :: rest => if x = u then setDelete rest u else x :: setDelete rest u

/-- A media-engine consumer handle (only the fields the server touches). -/
structure Consumer where
  id : Nat
  closeFails : Bool
  deriving Repr, DecidableEq

/-- A media-engine transport handle; `consumers` models `t.consumers || []`. -/
structure Transport where
  id : Nat
  consumers : List Consumer
  closeFails : Bool
  deriving Repr, DecidableEq

/-- A media-engine producer handle; `socketId` models `appData.socketId`. -/
structure Producer where
  id : Nat
  socketId : Nat
  closeFails : Bool
  deriving Repr, DecidableEq

/-- Observable actions of a handler run: close() attempts on handles,
participant broadcasts, newProducer broadcasts and engine consume calls. -/
inductive Event where
  | closeProducer (id : Nat)
  | closeConsumer (id : Nat)
  | closeTransport (id : Nat)
  | emitParticipants (channelId : Nat) (participants : List (Nat × String))
  | emitNewProducer (producerId : Nat) (socketId : Nat) (userId : Option Nat)
  | engineConsume (transportId : Nat) (producerId : Nat)
  deriving Repr, DecidableEq

def isCloseEvent : Event → Bool
  | Event.closeProducer _ => true
  | Event.closeConsumer _ => true
  | Event.closeTransport _ => true
  | _ => false

/-- Result of a media-engine call: a handle or a thrown error message. -/
inductive EngineResult (α : Type) where
  | ok (value : α)
  | err (msg : String)
  deriving Repr, DecidableEq

/-- Responses sent through the request callback. -/
inductive Response where
  | ok (id : Nat)
  | okConsumer (id : Nat) (producerId : Nat)
  | success
  | ids (l : List Nat)
  | error (msg : String)
  deriving Repr, DecidableEq

/-- The six module-level maps of server.js. -/
structure ServerState where
  transports : List (Nat × List Transport)
  producers : List (Nat × List Producer)
  allProducers : List (Nat × Producer)
  socketUserMap : List (Nat × Nat)
  userIdToNicknameMap : List (Nat × String)
  channelParticipants : List (Nat × List Nat)
  deriving Repr, DecidableEq

/-- `socketUserMap.get(socket.id)` followed by the `if (!userId) return`
truthiness check: a userId of 0 is falsy in JavaScript. -/
def resolveUserId (st : ServerState) (s : Nat) : Option Nat :=
  match mapGet st.socketUserMap s with
  | none => none
  | some u => if u = 0 then none else some u

def participantsSnapshot (nick : List (Nat × String)) (set : List Nat) :
    List (Nat × String) :=
  set.map (fun uid => (uid, (mapGet nick uid).getD "unknown"))

/-- `emitVoiceParticipants(channelId)`: reads the current set and the
nickname map at emit time. -/
def emitVoiceParticipants (st : ServerState) (channelId : Nat) : Event :=
  Event.emitParticipants channelId
    (participantsSnapshot st.userIdToNicknameMap
      ((mapGet st.channelParticipants channelId).getD []))

/-- Connection handler prologue: `transports.set(socket.id, []); producers.set(socket.id, [])`. -/
def onConnection (st : ServerState) (s : Nat) : ServerState :=
  { st with transports := mapSet st.transports s [],
            producers := mapSet st.producers s [] }

/-- The `register` handler. -/
def register (st : ServerState) (s userId : Nat) (nickname : String) : ServerState :=
  { st with socketUserMap := mapSet st.socketUserMap s userId,
            userIdToNicknameMap := mapSet st.userIdToNicknameMap userId nickname }

/-- The `joinVoiceChannel` handler. -/
def joinVoiceChannel (st : ServerState) (s channelId : Nat) :
    ServerState × List Event :=
  match resolveUserId st s with
  | none => (st, [])
  | some u =>
    let ps' := if mapHas st.producers s then st.producers else mapSet st.producers s []
    let ts' := if mapHas st.transports s then st.transports else mapSet st.transports s []
    let st1 := { st with producers := ps', transports := ts' }
    let cp' := if mapHas st1.channelParticipants channelId then st1.channelParticipants
      else mapSet st1.channelParticipants channelId []
    let st2 := { st1 with channelParticipants := cp' }
    let set := (mapGet st2.channelParticipants channelId).getD []
    let set' := if set.contains u then set else set ++ [u]
    let st3 := { st2 with channelParticipants := mapSet st2.channelParticipants channelId set' }
    (st3, [emitVoiceParticipants st3 channelId])

/-- Presence part of `leaveVoiceChannel`: delete from the set (if the
channel exists) and emit, reading the set after the deletion. -/
def leavePresence (st : ServerState) (u channelId : Nat) : ServerState × List Event :=
  if mapHas st.channelParticipants channelId then
    let set := (mapGet st.channelParticipants channelId).getD []
    let cp' := mapSet st.channelParticipants channelId (setDelete set u)
    let st' := { st with channelParticipants := cp' }
    (st', [emitVoiceParticipants st' channelId])
  else (st, [])

/-- `userProducers.forEach((p) => { try { p.close(); } catch (e) {...}
allProducers.delete(p.id); })`: every close is attempted (and its error
swallowed), the directory entry is deleted unconditionally. -/
def leaveProducerLoop (ps : List Producer) (ap : List (Nat × Producer)) :
    List (Nat × Producer) × List Event :=
  match ps with
  | [] => (ap, [])
  | p :: rest =>
    let res := leaveProducerLoop rest (mapDelete ap p.id)
    (res.1, Event.closeProducer p.id :: res.2)

/-- `userTransports.forEach((t) => { (t.consumers || []).forEach(c => try
c.close()); try { t.close(); } catch ... })`: consumer closes then the
transport close, all errors swallowed. -/
def leaveTransportLoop (ts : List Transport) : List Event :=
  match ts with
  | [] => []
  | t :: rest =>
    t.consumers.map (fun c => Event.closeConsumer c.id) ++
      (Event.closeTransport t.id :: leaveTransportLoop rest)

/-- The `leaveVoiceChannel` handler. -/
def leaveVoiceChannel (st : ServerState) (s channelId : Nat) :
    ServerState × List Event :=
  match resolveUserId st s with
  | none => (st, [])
  | some u =>
    let pres := leavePresence st u channelId
    let st1 := pres.1
    let ps := (mapGet st1.producers s).getD []
    let prodRes := leaveProducerLoop ps st1.allProducers
    let st2 := { st1 with allProducers := prodRes.1,
                          producers := mapDelete st1.producers s }
    let ts := (mapGet st2.transports s).getD []
    let evs3 := leaveTransportLoop ts
    let st3 := { st2 with transports := mapDelete st2.transports s }
    (st3, pres.2 ++ prodRes.2 ++ evs3)

/-- The `createWebRtcTransport` handler: on engine success the transport
is pushed onto the caller's list (created defensively if absent); on
engine failure an error payload is returned. -/
def createWebRtcTransport (st : ServerState) (s : Nat)
    (engineRes : EngineResult Transport) : ServerState × Response :=
  match engineRes with
  | EngineResult.err msg => (st, Response.error msg)
  | EngineResult.ok t =>
    let lst := (mapGet st.transports s).getD []
    ({ st with transports := mapSet st.transports s (lst ++ [t]) },
     Response.ok t.id)

/-- The `connectTransport` handler: lookup scoped to the caller's own list. -/
def connectTransport (st : ServerState) (s transportId : Nat)
    (engineErr : Option String) : ServerState × Response :=
  match ((mapGet st.transports s).getD []).find? (fun t => t.id == transportId) with
  | none => (st, Response.error "Transport not found")
  | some _ =>
    match engineErr with
    | none => (st, Response.success)
    | some msg => (st, Response.error msg)

/-- The `produce` handler: caller-scoped transport lookup, then the
engine call; on success the producer (tagged with `appData.socketId`) is
appended to the per-connection list and the global directory, the id is
returned, and a `newProducer` broadcast is emitted. -/
def produce (st : ServerState) (s transportId : Nat)
    (engineRes : EngineResult Producer) : ServerState × Response × List Event :=
  match ((mapGet st.transports s).getD []).find? (fun t => t.id == transportId) with
  | none => (st, Response.error "Transport not found", [])
  | some _ =>
    match engineRes with
    | EngineResult.err msg => (st, Response.error msg, [])
    | EngineResult.ok pr =>
      let p := { pr with socketId := s }
      let plist := (mapGet st.producers s).getD []
      ({ st with producers := mapSet st.producers s (plist ++ [p]),
                 allProducers := mapSet st.allProducers p.id p },
       Response.ok p.id,
       [Event.emitNewProducer p.id s (mapGet st.socketUserMap s)])

/-- The `getProducers` handler: all keys of the global directory. -/
def getProducers (st : ServerState) : List Nat :=
  st.allProducers.map Prod.fst

/-- The `consume` handler: caller-scoped transport lookup, then global
producer lookup, then the engine consume call (made in both the success
and the engine-error branch); no registry state is changed. -/
def consume (st : ServerState) (s transportId producerId : Nat)
    (engineRes : EngineResult Consumer) : ServerState × Response × List Event :=
  match ((mapGet st.transports s).getD []).find? (fun t => t.id == transportId) with
  | none => (st, Response.error "Transport not found", [])
  | some _ =>
    match mapGet st.allProducers producerId with
    | none => (st, Response.error "Producer not found", [])
    | some _ =>
      match engineRes with
      | EngineResult.err msg =>
        (st, Response.error msg, [Event.engineConsume transportId producerId])
      | EngineResult.ok c =>
        (st, Response.okConsumer c.id producerId,
         [Event.engineConsume transportId producerId])

/-- Presence loop of `disconnect`: iterate every channel entry, `if
(set.delete(userId)) emitVoiceParticipants(channelId)` — the emit reads
the set after the deletion; a raw (possibly missing) userId is used. -/
def disconnectPresence (chans : List (Nat × List Nat)) (nick : List (Nat × String))
    (userId : Option Nat) : List (Nat × List Nat) × List Event :=
  match chans, userId with
  | [], _ => ([], [])
  | (cid, set) :: rest, none =>
    let res := disconnectPresence rest nick none
    ((cid, set) :: res.1, res.2)
  | (cid, set) :: rest, some u =>
    if set.contains u then
      let set' := setDelete set u
      let res := disconnectPresence rest nick (some u)
      ((cid, set') :: res.1,
       Event.emitParticipants cid (participantsSnapshot nick set') :: res.2)
    else
      let res := disconnectPresence rest nick (some u)
      ((cid, set) :: res.1, res.2)

/-- Producer loop of `disconnect`: `prods.forEach(p => {
allProducers.delete(p.id); p.close(); })` — the delete precedes the
close, and the close is NOT wrapped in try/catch, so a throwing close
aborts the loop and the rest of the handler (third component `true`). -/
def disconnectProducers (ps : List Producer) (ap : List (Nat × Producer)) :
    List (Nat × Producer) × List Event × Bool :=
  match ps with
  | [] => (ap, [], false)
  | p :: rest =>
    let ap' := mapDelete ap p.id
    if p.closeFails then (ap', [Event.closeProducer p.id], true)
    else
      let res := disconnectProducers rest ap'
      (res.1, Event.closeProducer p.id :: res.2.1, res.2.2)

/-- The `disconnect` handler.  The identity binding is deleted first;
the presence loop runs over every channel; the producer loop can abort
on an uncaught close error, in which case the per-connection lists are
never deleted and no transport is closed. -/
def disconnect (st : ServerState) (s : Nat) : ServerState × List Event × Bool :=
  let userId := mapGet st.socketUserMap s
  let st1 := { st with socketUserMap := mapDelete st.socketUserMap s }
  let pres := disconnectPresence st1.channelParticipants st1.userIdToNicknameMap userId
  let st2 := { st1 with channelParticipants := pres.1 }
  let ps := (mapGet st2.producers s).getD []
  let prodRes := disconnectProducers ps st2.allProducers
  let st3 := { st2 with allProducers := prodRes.1 }
  if prodRes.2.2 then (st3, pres.2 ++ prodRes.2.1, true)
  else
    let st4 := { st3 with producers := mapDelete st3.producers s }
    let ts := (mapGet st4.transports s).getD []
    let evs3 := ts.map (fun t => Event.closeTransport t.id)
    let st5 := { st4 with transports := mapDelete st4.transports s }
    (st5, pres.2 ++ prodRes.2.1 ++ evs3, false)

/-- The two teardown triggers of the Cleanup Coordinator. -/
inductive Trig where
  | leave (channelId : Nat)
  | disc
  deriving Repr, DecidableEq

def runTrig (t : Trig) (s : Nat) (st : ServerState) :
    ServerState × List Event × Bool :=
  match t with
  | Trig.leave c =>
    let res := leaveVoiceChannel st s c
    (res.1, res.2, false)
  | Trig.disc => disconnect st s

/-- A teardown trigger runs to completion: a partial leave needs a
resolvable identity (otherwise it is a no-op), a disconnect needs no
producer close in the connection's list to throw. -/
def trigCompletes (t : Trig) (st : ServerState) (s : Nat) : Prop :=
  match t with
  | Trig.leave _ => (resolveUserId st s).isSome = true
  | Trig.disc => ∀ p ∈ (mapGet st.producers s).getD [], p.closeFails = false

/-- One inbound control message, with the media-engine outcome it
observes resolved as data. -/
inductive Op where
  | conn (s : Nat)
  | reg (s userId : Nat) (nickname : String)
  | join (s channelId : Nat)
  | leave (s channelId : Nat)
  | createTr (s : Nat) (engineRes : EngineResult Transport)
  | connectTr (s transportId : Nat) (engineErr : Option String)
  | prod (s transportId : Nat) (engineRes : EngineResult Producer)
  | cons (s transportId producerId : Nat) (engineRes : EngineResult Consumer)
  | getProds (s : Nat)
  | disc (s : Nat)
  deriving Repr, DecidableEq

def step (op : Op) (st : ServerState) : ServerState :=
  match op with
  | Op.conn s => onConnection st s
  | Op.reg s u n => register st s u n
  | Op.join s c => (joinVoiceChannel st s c).1
  | Op.leave s c => (leaveVoiceChannel st s c).1
  | Op.createTr s e => (createWebRtcTransport st s e).1
  | Op.connectTr s tid e => (connectTransport st s tid e).1
  | Op.prod s tid e => (produce st s tid e).1
  | Op.cons s tid pid e => (consume st s tid pid e).1
  | Op.getProds _ => st
  | Op.disc s => (disconnect st s).1

def run (ops : List Op) (st : ServerState) : ServerState :=
  match ops with
  | [] => st
  | op :: rest => run rest (step op st)

/-- Transport ids are exclusively owned: distinct connections own no
common transport id (engine-assigned ids are globally unique). -/
def transportOwnersDisjoint (st : ServerState) : Prop :=
  ∀ s1 s2 t1 t2, s1 ≠ s2 →
    t1 ∈ (mapGet st.transports s1).getD [] →
    t2 ∈ (mapGet st.transports s2).getD [] →
    t1.id ≠ t2.id

/-! Concrete handles and states used by witnesses and counterexamples. -/

def consW : Consumer := { id := 30, closeFails := false }

def trW : Transport := { id := 20, consumers := [consW], closeFails := false }

def trW2 : Transport := { id := 21, consumers := [], closeFails := false }

def prodW : Producer := { id := 10, socketId := 1, closeFails := false }

def prodWFail : Producer := { id := 10, socketId := 1, closeFails := true }

def prodW2 : Producer := { id := 11, socketId := 1, closeFails := false }

/-- Socket 1 registered as user 7 "alice", in channel 5, owning one
transport (with one consumer) and one producer. -/
def stReg : ServerState :=
  { transports := [(1, [trW])], producers := [(1, [prodW])],
    allProducers := [(10, prodW)], socketUserMap := [(1, 7)],
    userIdToNicknameMap := [(7, "alice")], channelParticipants := [(5, [7])] }

/-- Like `stReg` but the first producer's close() throws and a second
producer follows it in the list. -/
def stFailing : ServerState :=
  { transports := [(1, [trW])], producers := [(1, [prodWFail, prodW2])],
    allProducers := [(10, prodWFail), (11, prodW2)], socketUserMap := [(1, 7)],
    userIdToNicknameMap := [(7, "alice")], channelParticipants := [(5, [7])] }

/-- Socket 1 never registered, yet owning one transport. -/
def stUnreg : ServerState :=
  { transports := [(1, [trW])], producers := [(1, [])],
    allProducers := [], socketUserMap := [],
    userIdToNicknameMap := [], channelParticipants := [] }

/-- Socket 1 registered; the global directory holds a producer tagged
with socket 1 that is absent from the per-connection list. -/
def stOrphan : ServerState :=
  { transports := [(1, [])], producers := [(1, [])],
    allProducers := [(10, prodW)], socketUserMap := [(1, 7)],
    userIdToNicknameMap := [(7, "alice")], channelParticipants := [] }

/-- Two registered sockets, each owning one transport (ids 20 and 21). -/
def stTwo : ServerState :=
  { transports := [(1, [trW]), (2, [trW2])], producers := [(1, []), (2, [])],
    allProducers := [], socketUserMap := [(1, 7), (2, 8)],
    userIdToNicknameMap := [(7, "alice"), (8, "bob")], channelParticipants := [] }

/-! Association-list map lemmas. -/

theorem mapGet_set_self {α : Type} (m : List (Nat × α)) (k : Nat) (v : α) :
    mapGet (mapSet m k v) k = some v := by
  induction m with
  | nil => simp [mapSet, mapGet]
  | cons e rest ih =>
    obtain ⟨k', v'⟩ := e
    by_cases h : k' = k <;> simp [mapSet, mapGet, h, ih]

theorem mapGet_set_ne {α : Type} (m : List (Nat × α)) (k j : Nat) (v : α)
    (h : k ≠ j) : mapGet (mapSet m k v) j = mapGet m j := by
  induction m with
  | nil => simp [mapSet, mapGet, h]
  | cons e rest ih =>
    obtain ⟨k', v'⟩ := e
    by_cases hk : k' = k
    · subst hk; simp [mapSet, mapGet, h]
    · simp [mapSet, mapGet, hk, ih]

theorem mapGet_delete_self {α : Type} (m : List (Nat × α)) (k : Nat) :
    mapGet (mapDelete m k) k = none := by
  induction m with
  | nil => simp [mapDelete, mapGet]
  | cons e rest ih =>
    obtain ⟨k', v'⟩ := e
    by_cases h : k' = k <;> simp [mapDelete, mapGet, h, ih]

theorem mapGet_delete_ne {α : Type} (m : List (Nat × α)) (k j : Nat)
    (h : k ≠ j) : mapGet (mapDelete m k) j = mapGet m j := by
  induction m with
  | nil => simp [mapDelete, mapGet]
  | cons e rest ih =>
    obtain ⟨k', v'⟩ := e
    by_cases hk : k' = k
    · subst hk; simp [mapDelete, mapGet, h, ih]
    · simp [mapDelete, mapGet, hk, ih]

theorem mapGet_delete_none {α : Type} (m : List (Nat × α)) (k j : Nat)
    (h : mapGet m j = none) : mapGet (mapDelete m k) j = none := by
  by_cases hk : k = j
  · subst hk; exact mapGet_delete_self m k
  · rw [mapGet_delete_ne m k j hk]; exact h

theorem mapDelete_of_get_none {α : Type} (m : List (Nat × α)) (k : Nat)
    (h : mapGet m k = none) : mapDelete m k = m := by
  induction m with
  | nil => rfl
  | cons e rest ih =>
    obtain ⟨k', v'⟩ := e
    by_cases hk : k' = k
    · simp [mapGet, hk] at h
    · simp [mapGet, hk] at h
      simp [mapDelete, hk, ih h]

theorem mapGet_eq_none_iff {α : Type} (m : List (Nat × α)) (k : Nat) :
    mapGet m k = none ↔ k ∉ m.map Prod.fst := by
  induction m with
  | nil => simp [mapGet]
  | cons e rest ih =>
    obtain ⟨k', v'⟩ := e
    by_cases h : k' = k
    · subst h; simp [mapGet]
    · simp [mapGet, h, ih, Ne.symm h]

/-! Loop lemmas. -/

theorem leaveProducerLoop_events (ps : List Producer) (ap : List (Nat × Producer)) :
    (leaveProducerLoop ps ap).2 = ps.map (fun p => Event.closeProducer p.id) := by
  induction ps generalizing ap with
  | nil => rfl
  | cons p rest ih => simp [leaveProducerLoop, ih]

theorem leaveProducerLoop_get_none (ps : List Producer) (ap : List (Nat × Producer))
    (j : Nat) (h : mapGet ap j = none) :
    mapGet (leaveProducerLoop ps ap).1 j = none := by
  induction ps generalizing ap with
  | nil => exact h
  | cons p rest ih =>
    simp only [leaveProducerLoop]
    exact ih (mapDelete ap p.id) (mapGet_delete_none ap p.id j h)

theorem leaveProducerLoop_deletes (ps : List Producer) (ap : List (Nat × Producer))
    (p : Producer) (hp : p ∈ ps) :
    mapGet (leaveProducerLoop ps ap).1 p.id = none := by
  induction ps generalizing ap with
  | nil => cases hp
  | cons q rest ih =>
    simp only [leaveProducerLoop]
    rcases List.mem_cons.mp hp with h | h
    · subst h
      exact leaveProducerLoop_get_none rest (mapDelete ap p.id) p.id
        (mapGet_delete_self ap p.id)
    · exact ih (mapDelete ap q.id) h

theorem leaveProducerLoop_preserves (ps : List Producer) (ap : List (Nat × Producer))
    (j : Nat) (h : ∀ q ∈ ps, q.id ≠ j) :
    mapGet (leaveProducerLoop ps ap).1 j = mapGet ap j := by
  induction ps generalizing ap with
  | nil => rfl
  | cons q rest ih =>
    simp only [leaveProducerLoop]
    rw [ih (mapDelete ap q.id) (fun r hr => h r (List.mem_cons_of_mem q hr))]
    exact mapGet_delete_ne ap q.id j (h q (List.mem_cons_self q rest))

theorem leaveTransportLoop_decomp (ts : List Transport) (t : Transport)
    (ht : t ∈ ts) :
    ∃ A B, leaveTransportLoop ts = A ++ Event.closeTransport t.id :: B ∧
      ∀ cc ∈ t.consumers, Event.closeConsumer cc.id ∈ A := by
  induction ts with
  | nil => cases ht
  | cons t' rest ih =>
    rcases List.mem_cons.mp ht with h | h
    · subst h
      refine ⟨t.consumers.map (fun c => Event.closeConsumer c.id),
        leaveTransportLoop rest, ?_, ?_⟩
      · simp [leaveTransportLoop]
      · intro cc hcc
        exact List.mem_map_of_mem _ hcc
    · obtain ⟨A, B, hAB, hmem⟩ := ih h
      refine ⟨t'.consumers.map (fun c => Event.closeConsumer c.id) ++
        (Event.closeTransport t'.id :: A), B, ?_, ?_⟩
      · simp [leaveTransportLoop, hAB]
      · intro cc hcc
        simp only [List.mem_append, List.mem_cons]
        exact Or.inr (Or.inr (hmem cc hcc))

theorem leaveTransportLoop_mem_close (ts : List Transport) (t : Transport)
    (ht : t ∈ ts) : Event.closeTransport t.id ∈ leaveTransportLoop ts := by
  obtain ⟨A, B, hAB, _⟩ := leaveTransportLoop_decomp ts t ht
  rw [hAB]
  simp

theorem leaveTransportLoop_shape (ts : List Transport) (e : Event)
    (he : e ∈ leaveTransportLoop ts) :
    (∃ cid, e = Event.closeConsumer cid) ∨ ∃ tid, e = Event.closeTransport tid := by
  induction ts with
  | nil => cases he
  | cons t rest ih =>
    simp only [leaveTransportLoop, List.mem_append, List.mem_cons] at he
    rcases he with h | h | h
    · obtain ⟨c, _, hc⟩ := List.mem_map.mp h
      exact Or.inl ⟨c.id, hc.symm⟩
    · exact Or.inr ⟨t.id, h⟩
    · exact ih h

theorem disconnectPresence_none (chans : List (Nat × List Nat))
    (nick : List (Nat × String)) :
    disconnectPresence chans nick none = (chans, []) := by
  induction chans with
  | nil => rfl
  | cons e rest ih =>
    obtain ⟨cid, set⟩ := e
    simp [disconnectPresence, ih]

theorem disconnectPresence_events (chans : List (Nat × List Nat))
    (nick : List (Nat × String)) (uid : Option Nat) (e : Event)
    (he : e ∈ (disconnectPresence chans nick uid).2) :
    ∃ cid parts, e = Event.emitParticipants cid parts := by
  induction chans with
  | nil => cases uid <;> cases he
  | cons entry rest ih =>
    obtain ⟨cid, set⟩ := entry
    cases uid with
    | none =>
      simp only [disconnectPresence] at he
      exact ih he
    | some u =>
      by_cases h : set.contains u
      · simp only [disconnectPresence, h, if_pos, List.mem_cons] at he
        rcases he with h' | h'
        · exact ⟨cid, participantsSnapshot nick (setDelete set u), h'⟩
        · exact ih h'
      · simp only [disconnectPresence, h, if_neg, Bool.false_eq_true] at he
        exact ih he

theorem disconnectProducers_no_abort (ps : List Producer) (ap : List (Nat × Producer))
    (h : ∀ p ∈ ps, p.closeFails = false) :
    (disconnectProducers ps ap).2.2 = false := by
  induction ps generalizing ap with
  | nil => rfl
  | cons p rest ih =>
    have hp := h p (List.mem_cons_self p rest)
    simp only [disconnectProducers, hp, Bool.false_eq_true, if_neg]
    exact ih (mapDelete ap p.id) (fun q hq => h q (List.mem_cons_of_mem p hq))

theorem disconnectProducers_events_no_abort (ps : List Producer)
    (ap : List (Nat × Producer)) (h : ∀ p ∈ ps, p.closeFails = false) :
    (disconnectProducers ps ap).2.1 = ps.map (fun p => Event.closeProducer p.id) := by
  induction ps generalizing ap with
  | nil => rfl
  | cons p rest ih =>
    have hp := h p (List.mem_cons_self p rest)
    have ih' := ih (mapDelete ap p.id) (fun q hq => h q (List.mem_cons_of_mem p hq))
    simp [disconnectProducers, hp, ih']

theorem disconnectProducers_get_none (ps : List Producer) (ap : List (Nat × Producer))
    (j : Nat) (h : mapGet ap j = none) :
    mapGet (disconnectProducers ps ap).1 j = none := by
  induction ps generalizing ap with
  | nil => exact h
  | cons p rest ih =>
    by_cases hp : p.closeFails
    · simp only [disconnectProducers, hp, if_pos]
      exact mapGet_delete_none ap p.id j h
    · simp only [disconnectProducers, hp, if_neg, Bool.false_eq_true]
      exact ih (mapDelete ap p.id) (mapGet_delete_none ap p.id j h)

theorem disconnectProducers_deletes (ps : List Producer) (ap : List (Nat × Producer))
    (h : ∀ p ∈ ps, p.closeFails = false) (p : Producer) (hp : p ∈ ps) :
    mapGet (disconnectProducers ps ap).1 p.id = none := by
  induction ps generalizing ap with
  | nil => cases hp
  | cons q rest ih =>
    have hq := h q (List.mem_cons_self q rest)
    rcases List.mem_cons.mp hp with h' | h'
    · subst h'
      have hres := disconnectProducers_get_none rest (mapDelete ap p.id) p.id
        (mapGet_delete_self ap p.id)
      simp [disconnectProducers, hq, hres]
    · have hres := ih (mapDelete ap q.id)
        (fun r hr => h r (List.mem_cons_of_mem q hr)) h'
      simp [disconnectProducers, hq, hres]

theorem disconnectProducers_preserves (ps : List Producer) (ap : List (Nat × Producer))
    (j : Nat) (h : ∀ q ∈ ps, q.id ≠ j) :
    mapGet (disconnectProducers ps ap).1 j = mapGet ap j := by
  induction ps generalizing ap with
  | nil => rfl
  | cons q rest ih =>
    have hq := h q (List.mem_cons_self q rest)
    have hdel := mapGet_delete_ne ap q.id j hq
    cases hf : q.closeFails with
    | true => simp [disconnectProducers, hf, hdel]
    | false =>
      have ih' := ih (mapDelete ap q.id) (fun r hr => h r (List.mem_cons_of_mem q hr))
      simp [disconnectProducers, hf, ih', hdel]

theorem disconnectProducers_events_shape (ps : List Producer)
    (ap : List (Nat × Producer)) (e : Event)
    (he : e ∈ (disconnectProducers ps ap).2.1) :
    ∃ q ∈ ps, e = Event.closeProducer q.id := by
  induction ps generalizing ap with
  | nil => cases he
  | cons p rest ih =>
    cases hp : p.closeFails with
    | true =>
      simp [disconnectProducers, hp] at he
      exact ⟨p, List.mem_cons_self p rest, he⟩
    | false =>
      simp only [disconnectProducers, hp] at he
      simp [List.mem_cons] at he
      rcases he with h1 | h1
      · exact ⟨p, List.mem_cons_self p rest, h1⟩
      · obtain ⟨q, hq, hqe⟩ := ih (mapDelete ap p.id) h1
        exact ⟨q, List.mem_cons_of_mem p hq, hqe⟩

/-! Handler projection lemmas. -/

theorem leavePresence_producers (st : ServerState) (u c : Nat) :
    (leavePresence st u c).1.producers = st.producers := by
  unfold leavePresence; split <;> rfl

theorem leavePresence_transports (st : ServerState) (u c : Nat) :
    (leavePresence st u c).1.transports = st.transports := by
  unfold leavePresence; split <;> rfl

theorem leavePresence_allProducers (st : ServerState) (u c : Nat) :
    (leavePresence st u c).1.allProducers = st.allProducers := by
  unfold leavePresence; split <;> rfl

theorem leavePresence_socketUserMap (st : ServerState) (u c : Nat) :
    (leavePresence st u c).1.socketUserMap = st.socketUserMap := by
  unfold leavePresence; split <;> rfl

theorem leavePresence_nick (st : ServerState) (u c : Nat) :
    (leavePresence st u c).1.userIdToNicknameMap = st.userIdToNicknameMap := by
  unfold leavePresence; split <;> rfl

theorem leavePresence_events (st : ServerState) (u c : Nat) (e : Event)
    (he : e ∈ (leavePresence st u c).2) :
    ∃ cid parts, e = Event.emitParticipants cid parts := by
  unfold leavePresence at he
  split at he
  · simp only [List.mem_singleton] at he
    exact ⟨c, _, he⟩
  · cases he

theorem leave_unresolved (st : ServerState) (s c : Nat)
    (h : resolveUserId st s = none) : leaveVoiceChannel st s c = (st, []) := by
  unfold leaveVoiceChannel; rw [h]

theorem leave_producers (st : ServerState) (s c u : Nat)
    (h : resolveUserId st s = some u) :
    (leaveVoiceChannel st s c).1.producers = mapDelete st.producers s := by
  unfold leaveVoiceChannel; rw [h]
  simp [leavePresence_producers]

theorem leave_transports (st : ServerState) (s c u : Nat)
    (h : resolveUserId st s = some u) :
    (leaveVoiceChannel st s c).1.transports = mapDelete st.transports s := by
  unfold leaveVoiceChannel; rw [h]
  simp [leavePresence_transports]

theorem leave_allProducers (st : ServerState) (s c u : Nat)
    (h : resolveUserId st s = some u) :
    (leaveVoiceChannel st s c).1.allProducers =
      (leaveProducerLoop ((mapGet st.producers s).getD []) st.allProducers).1 := by
  unfold leaveVoiceChannel; rw [h]
  simp [leavePresence_producers, leavePresence_allProducers]

theorem leave_socketUserMap (st : ServerState) (s c : Nat) :
    (leaveVoiceChannel st s c).1.socketUserMap = st.socketUserMap := by
  unfold leaveVoiceChannel
  cases h : resolveUserId st s with
  | none => rfl
  | some u => simp [leavePresence_socketUserMap]

theorem leave_nick (st : ServerState) (s c : Nat) :
    (leaveVoiceChannel st s c).1.userIdToNicknameMap = st.userIdToNicknameMap := by
  unfold leaveVoiceChannel
  cases h : resolveUserId st s with
  | none => rfl
  | some u => simp [leavePresence_nick]

theorem leave_events (st : ServerState) (s c u : Nat)
    (h : resolveUserId st s = some u) :
    (leaveVoiceChannel st s c).2 =
      (leavePresence st u c).2 ++
      ((mapGet st.producers s).getD []).map (fun p => Event.closeProducer p.id) ++
      leaveTransportLoop ((mapGet st.transports s).getD []) := by
  unfold leaveVoiceChannel; rw [h]
  simp [leavePresence_producers, leavePresence_transports,
    leaveProducerLoop_events]

theorem disc_socketUserMap (st : ServerState) (s : Nat) :
    (disconnect st s).1.socketUserMap = mapDelete st.socketUserMap s := by
  unfold disconnect; dsimp only; split <;> rfl

theorem disc_nick (st : ServerState) (s : Nat) :
    (disconnect st s).1.userIdToNicknameMap = st.userIdToNicknameMap := by
  unfold disconnect; dsimp only; split <;> rfl

theorem disc_channelParticipants (st : ServerState) (s : Nat) :
    (disconnect st s).1.channelParticipants =
      (disconnectPresence st.channelParticipants st.userIdToNicknameMap
        (mapGet st.socketUserMap s)).1 := by
  unfold disconnect; dsimp only; split <;> rfl

theorem disc_allProducers (st : ServerState) (s : Nat) :
    (disconnect st s).1.allProducers =
      (disconnectProducers ((mapGet st.producers s).getD []) st.allProducers).1 := by
  unfold disconnect; dsimp only; split <;> rfl

theorem disc_aborted (st : ServerState) (s : Nat) :
    (disconnect st s).2.2 =
      (disconnectProducers ((mapGet st.producers s).getD []) st.allProducers).2.2 := by
  unfold disconnect
  dsimp only
  split
  · next h => exact h.symm
  · next h => simp at h; exact h.symm

theorem disc_noabort (st : ServerState) (s : Nat)
    (h : (disconnectProducers ((mapGet st.producers s).getD [])
      st.allProducers).2.2 = false) :
    (disconnect st s).1.producers = mapDelete st.producers s ∧
    (disconnect st s).1.transports = mapDelete st.transports s ∧
    (disconnect st s).2.1 =
      (disconnectPresence st.channelParticipants st.userIdToNicknameMap
        (mapGet st.socketUserMap s)).2 ++
      (disconnectProducers ((mapGet st.producers s).getD []) st.allProducers).2.1 ++
      ((mapGet st.transports s).getD []).map (fun t => Event.closeTransport t.id) := by
  unfold disconnect
  dsimp only
  split
  · next hc => rw [h] at hc; cases hc
  · exact ⟨rfl, rfl, rfl⟩

theorem disc_abort (st : ServerState) (s : Nat)
    (h : (disconnectProducers ((mapGet st.producers s).getD [])
      st.allProducers).2.2 = true) :
    (disconnect st s).1.producers = st.producers ∧
    (disconnect st s).1.transports = st.transports ∧
    (disconnect st s).2.1 =
      (disconnectPresence st.channelParticipants st.userIdToNicknameMap
        (mapGet st.socketUserMap s)).2 ++
      (disconnectProducers ((mapGet st.producers s).getD []) st.allProducers).2.1 := by
  unfold disconnect
  dsimp only
  split
  · exact ⟨rfl, rfl, rfl⟩
  · next hc => simp at hc; rw [h] at hc; cases hc

theorem consume_state (st : ServerState) (s tid pid : Nat)
    (e : EngineResult Consumer) : (consume st s tid pid e).1 = st := by
  unfold consume
  split
  · rfl
  · split
    · rfl
    · split <;> rfl

theorem connectTransport_state (st : ServerState) (s tid : Nat)
    (e : Option String) : (connectTransport st s tid e).1 = st := by
  unfold connectTransport
  split
  · rfl
  · split <;> rfl

theorem createTr_fields (st : ServerState) (s : Nat) (e : EngineResult Transport) :
    (createWebRtcTransport st s e).1.producers = st.producers ∧
    (createWebRtcTransport st s e).1.allProducers = st.allProducers ∧
    (createWebRtcTransport st s e).1.socketUserMap = st.socketUserMap ∧
    (createWebRtcTransport st s e).1.userIdToNicknameMap = st.userIdToNicknameMap := by
  unfold createWebRtcTransport
  cases e <;> exact ⟨rfl, rfl, rfl, rfl⟩

theorem join_fields (st : ServerState) (s c : Nat) :
    (joinVoiceChannel st s c).1.socketUserMap = st.socketUserMap ∧
    (joinVoiceChannel st s c).1.userIdToNicknameMap = st.userIdToNicknameMap ∧
    (joinVoiceChannel st s c).1.allProducers = st.allProducers := by
  unfold joinVoiceChannel
  cases h : resolveUserId st s with
  | none => exact ⟨rfl, rfl, rfl⟩
  | some u => exact ⟨rfl, rfl, rfl⟩

theorem produce_fields (st : ServerState) (s tid : Nat) (e : EngineResult Producer) :
    (produce st s tid e).1.socketUserMap = st.socketUserMap ∧
    (produce st s tid e).1.userIdToNicknameMap = st.userIdToNicknameMap ∧
    (produce st s tid e).1.transports = st.transports ∧
    (produce st s tid e).1.channelParticipants = st.channelParticipants := by
  unfold produce
  split
  · exact ⟨rfl, rfl, rfl, rfl⟩
  · split <;> exact ⟨rfl, rfl, rfl, rfl⟩

theorem produce_found_ok (st : ServerState) (s tid : Nat) (pr : Producer)
    (tr : Transport)
    (hf : ((mapGet st.transports s).getD []).find? (fun t => t.id == tid) = some tr) :
    (produce st s tid (EngineResult.ok pr)).2.1 = Response.ok pr.id ∧
    (produce st s tid (EngineResult.ok pr)).1.allProducers =
      mapSet st.allProducers pr.id { pr with socketId := s } ∧
    (produce st s tid (EngineResult.ok pr)).1.producers =
      mapSet st.producers s (((mapGet st.producers s).getD []) ++
        [{ pr with socketId := s }]) := by
  unfold produce
  rw [hf]
  exact ⟨rfl, rfl, rfl⟩

/-! Bridging helper lemmas. -/

theorem resolveUserId_eq_of_map_eq (st st' : ServerState) (s : Nat)
    (h : st'.socketUserMap = st.socketUserMap) :
    resolveUserId st' s = resolveUserId st s := by
  unfold resolveUserId; rw [h]

theorem mem_keys_of_mapGet_some {α : Type} (m : List (Nat × α)) (k : Nat) (v : α)
    (h : mapGet m k = some v) : k ∈ m.map Prod.fst := by
  by_contra hc
  rw [← mapGet_eq_none_iff] at hc
  rw [h] at hc
  cases hc

theorem not_mem_keys_of_mapGet_none {α : Type} (m : List (Nat × α)) (k : Nat)
    (h : mapGet m k = none) : k ∉ m.map Prod.fst :=
  (mapGet_eq_none_iff m k).mp h

theorem disc_events_mem (st : ServerState) (s : Nat) (e : Event)
    (he : e ∈ (disconnect st s).2.1) :
    e ∈ (disconnectPresence st.channelParticipants st.userIdToNicknameMap
          (mapGet st.socketUserMap s)).2 ∨
    e ∈ (disconnectProducers ((mapGet st.producers s).getD []) st.allProducers).2.1 ∨
    ∃ t ∈ (mapGet st.transports s).getD [], e = Event.closeTransport t.id := by
  by_cases h : (disconnectProducers ((mapGet st.producers s).getD [])
      st.allProducers).2.2 = true
  · obtain ⟨_, _, hevs⟩ := disc_abort st s h
    rw [hevs] at he
    rcases List.mem_append.mp he with h1 | h1
    · exact Or.inl h1
    · exact Or.inr (Or.inl h1)
  · have h' : (disconnectProducers ((mapGet st.producers s).getD [])
        st.allProducers).2.2 = false := by
      cases hb : (disconnectProducers ((mapGet st.producers s).getD [])
          st.allProducers).2.2
      · rfl
      · exact absurd hb h
    obtain ⟨_, _, hevs⟩ := disc_noabort st s h'
    rw [hevs] at he
    rcases List.mem_append.mp he with h1 | h1
    · rcases List.mem_append.mp h1 with h2 | h2
      · exact Or.inl h2
      · exact Or.inr (Or.inl h2)
    · obtain ⟨t, ht, hte⟩ := List.mem_map.mp h1
      exact Or.inr (Or.inr ⟨t, ht, hte.symm⟩)

theorem leave_events_mem (st : ServerState) (s c u : Nat)
    (h : resolveUserId st s = some u) (e : Event)
    (he : e ∈ (leaveVoiceChannel st s c).2) :
    e ∈ (leavePresence st u c).2 ∨
    (∃ q ∈ (mapGet st.producers s).getD [], e = Event.closeProducer q.id) ∨
    e ∈ leaveTransportLoop ((mapGet st.transports s).getD []) := by
  rw [leave_events st s c u h] at he
  rcases List.mem_append.mp he with h1 | h1
  · rcases List.mem_append.mp h1 with h2 | h2
    · exact Or.inl h2
    · obtain ⟨q, hq, hqe⟩ := List.mem_map.mp h2
      exact Or.inr (Or.inl ⟨q, hq, hqe.symm⟩)
  · exact Or.inr (Or.inr h1)

theorem stTwo_disjoint : transportOwnersDisjoint stTwo := by
  intro s1 s2 t1 t2 hns h1 h2
  by_cases a1 : 1 = s1 <;> by_cases a2 : 2 = s1 <;>
    by_cases b1 : 1 = s2 <;> by_cases b2 : 2 = s2 <;>
    simp_all [stTwo, mapGet, trW, trW2]

/-! Claim theorems. -/

/-- C7: when `consume` is called with a transport id the caller owns but a
producerId absent from the global producer directory, the response is
exactly the error payload "Producer not found", the state is unchanged,
and no engine consume call occurs. -/
theorem consume_unknown_producer (st : ServerState) (s tid pid : Nat)
    (tr : Transport) (e : EngineResult Consumer)
    (hf : ((mapGet st.transports s).getD []).find? (fun t => t.id == tid) = some tr)
    (hp : mapGet st.allProducers pid = none) :
    consume st s tid pid e = (st, Response.error "Producer not found", []) := by
  unfold consume
  rw [hf, hp]

theorem consume_unknown_producer_witness :
    consume stReg 1 20 99 (EngineResult.ok consW) =
      (stReg, Response.error "Producer not found", []) :=
  consume_unknown_producer stReg 1 20 99 trW (EngineResult.ok consW)
    (by decide) (by decide)

/-- C8: calling `connectTransport`, `produce` or `consume` on connection
`a` with a transport id owned by a different connection `b` returns the
"Transport not found" error payload, leaves the state unchanged and never
succeeds, because transport lookup is scoped to the caller's own list. -/
theorem cross_connection_transport_not_found (st : ServerState) (a b tid : Nat)
    (hab : a ≠ b) (hdisj : transportOwnersDisjoint st) (tb : Transport)
    (htb : tb ∈ (mapGet st.transports b).getD []) (hid : tb.id = tid)
    (eC : Option String) (eP : EngineResult Producer) (pid : Nat)
    (eK : EngineResult Consumer) :
    connectTransport st a tid eC = (st, Response.error "Transport not found") ∧
    produce st a tid eP = (st, Response.error "Transport not found", []) ∧
    consume st a tid pid eK = (st, Response.error "Transport not found", []) := by
  have hnone : ((mapGet st.transports a).getD []).find? (fun t => t.id == tid) = none := by
    apply List.find?_eq_none.mpr
    intro t ht
    have hne : t.id ≠ tb.id := hdisj a b t tb hab ht htb
    rw [hid] at hne
    simp [hne]
  refine ⟨?_, ?_, ?_⟩
  · unfold connectTransport; rw [hnone]
  · unfold produce; rw [hnone]
  · unfold consume; rw [hnone]

theorem cross_connection_transport_not_found_witness :
    connectTransport stTwo 1 21 none = (stTwo, Response.error "Transport not found") ∧
    produce stTwo 1 21 (EngineResult.ok prodW) =
      (stTwo, Response.error "Transport not found", []) ∧
    consume stTwo 1 21 10 (EngineResult.ok consW) =
      (stTwo, Response.error "Transport not found", []) :=
  cross_connection_transport_not_found stTwo 1 2 21 (by decide) stTwo_disjoint
    trW2 (by decide) rfl none (EngineResult.ok prodW) 10 (EngineResult.ok consW)

/-- C2: at a state where the first producer in the disconnecting
connection's list has a close() that throws, the `disconnect` handler
aborts: the error is not caught, the second producer is neither closed
nor removed from the global directory, no transport is closed, and the
per-connection registry lists are never deleted — only the failing
producer's directory entry (deleted before the close attempt) is gone.
This contradicts the claim that the error is caught and all remaining
teardown steps still execute. -/
theorem disconnect_uncaught_close_error :
    (disconnect stFailing 1).2.2 = true ∧
    Event.closeProducer 10 ∈ (disconnect stFailing 1).2.1 ∧
    mapGet (disconnect stFailing 1).1.allProducers 10 = none ∧
    mapGet (disconnect stFailing 1).1.allProducers 11 = some prodW2 ∧
    Event.closeProducer 11 ∉ (disconnect stFailing 1).2.1 ∧
    Event.closeTransport 20 ∉ (disconnect stFailing 1).2.1 ∧
    mapGet (disconnect stFailing 1).1.producers 1 = some [prodWFail, prodW2] ∧
    mapGet (disconnect stFailing 1).1.transports 1 = some [trW] := by
  decide

/-- C3 counterexample: a connection with no identity binding that owns a
transport: its `disconnect` still issues a transport close() call and
deletes the registry lists, so the teardown is not a no-op. -/
theorem unregistered_disconnect_not_noop :
    mapGet stUnreg.socketUserMap 1 = none ∧
    Event.closeTransport 20 ∈ (disconnect stUnreg 1).2.1 ∧
    mapGet (disconnect stUnreg 1).1.transports 1 = none ∧
    (disconnect stUnreg 1).1 ≠ stUnreg := by
  decide

/-- C4 counterexample: on `disconnect`, a consumer attached to the
connection's transport receives no close() call at all, even though the
transport itself is closed. -/
theorem disconnect_no_consumer_close :
    trW ∈ (mapGet stReg.transports 1).getD [] ∧
    consW ∈ trW.consumers ∧
    Event.closeTransport 20 ∈ (disconnect stReg 1).2.1 ∧
    Event.closeConsumer 30 ∉ (disconnect stReg 1).2.1 := by
  decide

/-- C5 counterexample: a producer present in the global directory whose
owning-connection tag matches the leaving connection but which is absent
from the per-connection list is neither closed nor removed by
`leaveVoiceChannel`. -/
theorem orphan_directory_entry_not_cleaned :
    mapGet stOrphan.allProducers 10 = some prodW ∧
    prodW.socketId = 1 ∧
    (mapGet stOrphan.producers 1).getD [] = [] ∧
    resolveUserId stOrphan 1 = some 7 ∧
    mapGet (leaveVoiceChannel stOrphan 1 5).1.allProducers 10 = some prodW ∧
    Event.closeProducer 10 ∉ (leaveVoiceChannel stOrphan 1 5).2 := by
  decide

/-- C6 counterexample: an unregistered connection successfully produces;
the returned id is in `getProducers`; the `leaveVoiceChannel` teardown
trigger then fires but is a no-op (identity unresolved), so the id is
still present in `getProducers` afterwards. -/
theorem produced_id_survives_teardown :
    (produce stUnreg 1 20 (EngineResult.ok prodW)).2.1 = Response.ok 10 ∧
    10 ∈ getProducers (produce stUnreg 1 20 (EngineResult.ok prodW)).1 ∧
    leaveVoiceChannel (produce stUnreg 1 20 (EngineResult.ok prodW)).1 1 5 =
      ((produce stUnreg 1 20 (EngineResult.ok prodW)).1, []) ∧
    10 ∈ getProducers
      (leaveVoiceChannel (produce stUnreg 1 20 (EngineResult.ok prodW)).1 1 5).1 := by
  decide

theorem step_nick_preserved (op : Op) (st : ServerState) (u : Nat)
    (h : ∀ s' n', op ≠ Op.reg s' u n') :
    mapGet (step op st).userIdToNicknameMap u = mapGet st.userIdToNicknameMap u := by
  cases op with
  | conn s => rfl
  | reg s' u' n' =>
    have hne : u' ≠ u := by
      intro he
      exact h s' n' (by rw [he])
    show mapGet (mapSet st.userIdToNicknameMap u' n') u = _
    exact mapGet_set_ne st.userIdToNicknameMap u' u n' hne
  | join s c => simp only [step]; rw [(join_fields st s c).2.1]
  | leave s c => simp only [step]; rw [leave_nick]
  | createTr s e => simp only [step]; rw [(createTr_fields st s e).2.2.2]
  | connectTr s tid e => simp only [step]; rw [connectTransport_state]
  | prod s tid e => simp only [step]; rw [(produce_fields st s tid e).2.1]
  | cons s tid pid e => simp only [step]; rw [consume_state]
  | getProds s => rfl
  | disc s => simp only [step]; rw [disc_nick]

/-- C9: the connectionId-to-userId identity binding is removed only by
the full `disconnect` trigger: `leaveVoiceChannel` leaves the
socketUserMap unchanged, no other operation removes an existing binding,
and `disconnect` does remove the disconnecting connection's binding. -/
theorem identity_binding_only_disconnect (st : ServerState) :
    (∀ s c, (leaveVoiceChannel st s c).1.socketUserMap = st.socketUserMap) ∧
    (∀ op, (∀ s, op ≠ Op.disc s) → ∀ sock u,
      mapGet st.socketUserMap sock = some u →
      ∃ u', mapGet (step op st).socketUserMap sock = some u') ∧
    (∀ s, mapGet (disconnect st s).1.socketUserMap s = none) := by
  refine ⟨fun s c => leave_socketUserMap st s c, ?_, ?_⟩
  · intro op hop sock u hu
    cases op with
    | conn s => exact ⟨u, hu⟩
    | reg s' u' n' =>
      by_cases hs : s' = sock
      · subst hs
        exact ⟨u', mapGet_set_self st.socketUserMap s' u'⟩
      · refine ⟨u, ?_⟩
        show mapGet (mapSet st.socketUserMap s' u') sock = some u
        rw [mapGet_set_ne st.socketUserMap s' sock u' hs]
        exact hu
    | join s c =>
      refine ⟨u, ?_⟩
      show mapGet (joinVoiceChannel st s c).1.socketUserMap sock = some u
      rw [(join_fields st s c).1]
      exact hu
    | leave s c =>
      refine ⟨u, ?_⟩
      show mapGet (leaveVoiceChannel st s c).1.socketUserMap sock = some u
      rw [leave_socketUserMap]
      exact hu
    | createTr s e =>
      refine ⟨u, ?_⟩
      show mapGet (createWebRtcTransport st s e).1.socketUserMap sock = some u
      rw [(createTr_fields st s e).2.2.1]
      exact hu
    | connectTr s tid e =>
      refine ⟨u, ?_⟩
      show mapGet (connectTransport st s tid e).1.socketUserMap sock = some u
      rw [connectTransport_state]
      exact hu
    | prod s tid e =>
      refine ⟨u, ?_⟩
      show mapGet (produce st s tid e).1.socketUserMap sock = some u
      rw [(produce_fields st s tid e).1]
      exact hu
    | cons s tid pid e =>
      refine ⟨u, ?_⟩
      show mapGet (consume st s tid pid e).1.socketUserMap sock = some u
      rw [consume_state]
      exact hu
    | getProds s => exact ⟨u, hu⟩
    | disc s => exact absurd rfl (hop s)
  · intro s
    rw [disc_socketUserMap]
    exact mapGet_delete_self st.socketUserMap s

theorem identity_binding_only_disconnect_witness :
    (leaveVoiceChannel stReg 1 5).1.socketUserMap = stReg.socketUserMap ∧
    (∃ u', mapGet (step (Op.leave 1 5) stReg).socketUserMap 1 = some u') ∧
    mapGet (disconnect stReg 1).1.socketUserMap 1 = none :=
  ⟨(identity_binding_only_disconnect stReg).1 1 5,
   (identity_binding_only_disconnect stReg).2.1 (Op.leave 1 5)
     (fun _ h => nomatch h) 1 7 (by decide),
   (identity_binding_only_disconnect stReg).2.2 1⟩

/-- C10: no operation removes a userId from the nickname map: `register`
sets the nickname, every operation preserves the presence of an existing
entry, and over any sequence of operations that never re-registers that
userId the resolved nickname is unchanged — even across disconnects. -/
theorem nickname_binding_persistent (u : Nat) :
    (∀ st s n, mapGet (register st s u n).userIdToNicknameMap u = some n) ∧
    (∀ st op, (mapGet st.userIdToNicknameMap u).isSome = true →
      (mapGet (step op st).userIdToNicknameMap u).isSome = true) ∧
    (∀ st ops n, mapGet st.userIdToNicknameMap u = some n →
      (∀ op ∈ ops, ∀ s' n', op ≠ Op.reg s' u n') →
      mapGet (run ops st).userIdToNicknameMap u = some n) := by
  refine ⟨?_, ?_, ?_⟩
  · intro st s n
    exact mapGet_set_self st.userIdToNicknameMap u n
  · intro st op hs
    by_cases hreg : ∀ s' n', op ≠ Op.reg s' u n'
    · rw [step_nick_preserved op st u hreg]
      exact hs
    · push_neg at hreg
      obtain ⟨s', n', he⟩ := hreg
      subst he
      show (mapGet (register st s' u n').userIdToNicknameMap u).isSome = true
      unfold register
      simp only
      rw [mapGet_set_self]
      rfl
  · intro st ops n hn hops
    induction ops generalizing st with
    | nil => exact hn
    | cons op rest ih =>
      show mapGet (run rest (step op st)).userIdToNicknameMap u = some n
      apply ih
      · rw [step_nick_preserved op st u (hops op (List.mem_cons_self op rest))]
        exact hn
      · exact fun o ho => hops o (List.mem_cons_of_mem op ho)

theorem nickname_binding_persistent_witness :
    mapGet (register stUnreg 1 7 "alice").userIdToNicknameMap 7 = some "alice" ∧
    mapGet (run [Op.leave 1 5, Op.disc 1] stReg).userIdToNicknameMap 7 =
      some "alice" :=
  ⟨(nickname_binding_persistent 7).1 stUnreg 1 "alice",
   (nickname_binding_persistent 7).2.2 stReg [Op.leave 1 5, Op.disc 1] "alice"
     (by decide)
     (by intro op hop s' n' he
         subst he
         simp at hop)⟩

theorem second_pass_inert (st1 : ServerState) (s : Nat)
    (hp : mapGet st1.producers s = none) (ht : mapGet st1.transports s = none)
    (t2 : Trig) :
    (runTrig t2 s st1).2.2 = false ∧
    (∀ e ∈ (runTrig t2 s st1).2.1, isCloseEvent e = false) ∧
    (runTrig t2 s st1).1.producers = st1.producers ∧
    (runTrig t2 s st1).1.transports = st1.transports ∧
    (runTrig t2 s st1).1.allProducers = st1.allProducers := by
  have hps : (mapGet st1.producers s).getD [] = ([] : List Producer) := by
    rw [hp]; rfl
  have hts : (mapGet st1.transports s).getD [] = ([] : List Transport) := by
    rw [ht]; rfl
  cases t2 with
  | leave c =>
    cases hr : resolveUserId st1 s with
    | none =>
      have heq := leave_unresolved st1 s c hr
      simp [runTrig, heq]
    | some u =>
      refine ⟨rfl, ?_, ?_, ?_, ?_⟩
      · intro e he
        simp only [runTrig] at he
        rcases leave_events_mem st1 s c u hr e he with h1 | h1 | h1
        · obtain ⟨cid, parts, hce⟩ := leavePresence_events st1 u c e h1
          rw [hce]; rfl
        · obtain ⟨q, hq, _⟩ := h1
          rw [hps] at hq
          cases hq
        · rw [hts] at h1
          cases h1
      · simp only [runTrig]
        rw [leave_producers st1 s c u hr]
        exact mapDelete_of_get_none st1.producers s hp
      · simp only [runTrig]
        rw [leave_transports st1 s c u hr]
        exact mapDelete_of_get_none st1.transports s ht
      · simp only [runTrig]
        rw [leave_allProducers st1 s c u hr, hps]
        rfl
  | disc =>
    have hno : (disconnectProducers ((mapGet st1.producers s).getD [])
        st1.allProducers).2.2 = false := by
      rw [hps]; rfl
    obtain ⟨hprod, htrans, hevs⟩ := disc_noabort st1 s hno
    refine ⟨?_, ?_, ?_, ?_, ?_⟩
    · simp only [runTrig]
      rw [disc_aborted, hps]
      rfl
    · intro e he
      simp only [runTrig] at he
      rw [hevs, hps, hts] at he
      have hnilp : (disconnectProducers ([] : List Producer)
          st1.allProducers).2.1 = [] := rfl
      rw [hnilp] at he
      simp only [List.map_nil, List.append_nil] at he
      have he' : e ∈ (disconnectPresence st1.channelParticipants
          st1.userIdToNicknameMap (mapGet st1.socketUserMap s)).2 := he
      obtain ⟨cid, parts, hce⟩ :=
        disconnectPresence_events st1.channelParticipants st1.userIdToNicknameMap
          (mapGet st1.socketUserMap s) e he'
      rw [hce]; rfl
    · simp only [runTrig]
      rw [hprod]
      exact mapDelete_of_get_none st1.producers s hp
    · simp only [runTrig]
      rw [htrans]
      exact mapDelete_of_get_none st1.transports s ht
    · simp only [runTrig]
      rw [disc_allProducers, hps]
      rfl

/-- C1: once a teardown trigger has completed for a connection (a
partial leave with resolvable identity, or a disconnect whose producer
loop does not throw), invoking either teardown trigger again for the
same connection finds empty per-connection lists, raises no uncaught
error, issues no close() call on any handle, and leaves the resource
registry (per-connection lists and global producer directory) unchanged. -/
theorem cleanup_idempotent (st : ServerState) (s : Nat) (t1 t2 : Trig)
    (h : trigCompletes t1 st s) :
    ((mapGet (runTrig t1 s st).1.producers s).getD [] = [] ∧
     (mapGet (runTrig t1 s st).1.transports s).getD [] = []) ∧
    (runTrig t2 s (runTrig t1 s st).1).2.2 = false ∧
    (∀ e ∈ (runTrig t2 s (runTrig t1 s st).1).2.1, isCloseEvent e = false) ∧
    (runTrig t2 s (runTrig t1 s st).1).1.producers = (runTrig t1 s st).1.producers ∧
    (runTrig t2 s (runTrig t1 s st).1).1.transports = (runTrig t1 s st).1.transports ∧
    (runTrig t2 s (runTrig t1 s st).1).1.allProducers =
      (runTrig t1 s st).1.allProducers := by
  have hkey : mapGet (runTrig t1 s st).1.producers s = none ∧
      mapGet (runTrig t1 s st).1.transports s = none := by
    cases t1 with
    | leave c =>
      have h' : (resolveUserId st s).isSome = true := h
      obtain ⟨u, hu⟩ := Option.isSome_iff_exists.mp h'
      constructor
      · simp only [runTrig]
        rw [leave_producers st s c u hu]
        exact mapGet_delete_self st.producers s
      · simp only [runTrig]
        rw [leave_transports st s c u hu]
        exact mapGet_delete_self st.transports s
    | disc =>
      have h' : ∀ p ∈ (mapGet st.producers s).getD [], p.closeFails = false := h
      have hno := disconnectProducers_no_abort ((mapGet st.producers s).getD [])
        st.allProducers h'
      obtain ⟨hprod, htrans, _⟩ := disc_noabort st s hno
      constructor
      · simp only [runTrig]
        rw [hprod]
        exact mapGet_delete_self st.producers s
      · simp only [runTrig]
        rw [htrans]
        exact mapGet_delete_self st.transports s
  obtain ⟨hp, ht⟩ := hkey
  refine ⟨⟨by rw [hp]; rfl, by rw [ht]; rfl⟩, ?_⟩
  exact second_pass_inert (runTrig t1 s st).1 s hp ht t2

theorem cleanup_idempotent_witness :
    (runTrig Trig.disc 1 (runTrig (Trig.leave 5) 1 stReg).1).2.2 = false ∧
    (runTrig Trig.disc 1 (runTrig (Trig.leave 5) 1 stReg).1).1.producers =
      (runTrig (Trig.leave 5) 1 stReg).1.producers :=
  ⟨(cleanup_idempotent stReg 1 (Trig.leave 5) Trig.disc
      (by simp only [trigCompletes]; decide)).2.1,
   (cleanup_idempotent stReg 1 (Trig.leave 5) Trig.disc
      (by simp only [trigCompletes]; decide)).2.2.2.1⟩

/-- C3 (amended): with no identity binding, `leaveVoiceChannel` is a
complete no-op; `disconnect` of an unbound connection performs no
presence change and no participant broadcast, but still closes the
connection's producers and transports and deletes its registry lists. -/
theorem teardown_unresolved_identity (st : ServerState) (s : Nat) :
    (∀ c, resolveUserId st s = none → leaveVoiceChannel st s c = (st, [])) ∧
    (mapGet st.socketUserMap s = none →
      (disconnect st s).1.channelParticipants = st.channelParticipants ∧
      (∀ cid parts, Event.emitParticipants cid parts ∉ (disconnect st s).2.1) ∧
      ((∀ p ∈ (mapGet st.producers s).getD [], p.closeFails = false) →
        mapGet (disconnect st s).1.producers s = none ∧
        mapGet (disconnect st s).1.transports s = none ∧
        (∀ p ∈ (mapGet st.producers s).getD [],
          Event.closeProducer p.id ∈ (disconnect st s).2.1) ∧
        (∀ t ∈ (mapGet st.transports s).getD [],
          Event.closeTransport t.id ∈ (disconnect st s).2.1))) := by
  constructor
  · exact fun c h => leave_unresolved st s c h
  · intro h
    refine ⟨?_, ?_, ?_⟩
    · rw [disc_channelParticipants, h, disconnectPresence_none]
    · intro cid parts hmem
      rcases disc_events_mem st s _ hmem with h1 | h1 | h1
      · rw [h, disconnectPresence_none] at h1
        cases h1
      · obtain ⟨q, _, hqe⟩ := disconnectProducers_events_shape _ _ _ h1
        cases hqe
      · obtain ⟨t, _, hte⟩ := h1
        cases hte
    · intro hfail
      have hno := disconnectProducers_no_abort ((mapGet st.producers s).getD [])
        st.allProducers hfail
      obtain ⟨hprod, htrans, hevs⟩ := disc_noabort st s hno
      refine ⟨?_, ?_, ?_, ?_⟩
      · rw [hprod]; exact mapGet_delete_self st.producers s
      · rw [htrans]; exact mapGet_delete_self st.transports s
      · intro p hp
        rw [hevs]
        apply List.mem_append_left
        apply List.mem_append_right
        rw [disconnectProducers_events_no_abort _ _ hfail]
        exact List.mem_map_of_mem _ hp
      · intro t htm
        rw [hevs]
        apply List.mem_append_right
        exact List.mem_map_of_mem _ htm

theorem teardown_unresolved_identity_witness :
    leaveVoiceChannel stUnreg 1 5 = (stUnreg, []) ∧
    mapGet (disconnect stUnreg 1).1.transports 1 = none ∧
    (∀ cid parts, Event.emitParticipants cid parts ∉ (disconnect stUnreg 1).2.1) :=
  ⟨(teardown_unresolved_identity stUnreg 1).1 5 rfl,
   (((teardown_unresolved_identity stUnreg 1).2 rfl).2.2 (by decide)).2.1,
   ((teardown_unresolved_identity stUnreg 1).2 rfl).2.1⟩

/-- C4 (amended): in `leaveVoiceChannel`, every consumer attached to a
transport owned by the connection receives its close() call strictly
before the owning transport's close() call; in `disconnect`, transports
are closed without any consumer close() call at all (so vacuously no
consumer close follows a transport close there). -/
theorem consumer_close_ordering (st : ServerState) (s : Nat) :
    (∀ c u, resolveUserId st s = some u →
      ∀ t ∈ (mapGet st.transports s).getD [], ∃ l1 l2,
        (leaveVoiceChannel st s c).2 = l1 ++ Event.closeTransport t.id :: l2 ∧
        ∀ cc ∈ t.consumers, Event.closeConsumer cc.id ∈ l1) ∧
    (∀ cid, Event.closeConsumer cid ∉ (disconnect st s).2.1) := by
  constructor
  · intro c u hr t htm
    obtain ⟨A, B, hAB, hcc⟩ :=
      leaveTransportLoop_decomp ((mapGet st.transports s).getD []) t htm
    refine ⟨(leavePresence st u c).2 ++
      ((mapGet st.producers s).getD []).map (fun p => Event.closeProducer p.id) ++ A,
      B, ?_, ?_⟩
    · rw [leave_events st s c u hr, hAB]
      simp [List.append_assoc]
    · intro cc hccm
      apply List.mem_append_right
      exact hcc cc hccm
  · intro cid hmem
    rcases disc_events_mem st s _ hmem with h1 | h1 | h1
    · obtain ⟨c2, p2, hce⟩ := disconnectPresence_events _ _ _ _ h1
      cases hce
    · obtain ⟨q, _, hqe⟩ := disconnectProducers_events_shape _ _ _ h1
      cases hqe
    · obtain ⟨t, _, hte⟩ := h1
      cases hte

theorem consumer_close_ordering_witness :
    (∃ l1 l2, (leaveVoiceChannel stReg 1 5).2 =
        l1 ++ Event.closeTransport trW.id :: l2 ∧
      ∀ cc ∈ trW.consumers, Event.closeConsumer cc.id ∈ l1) ∧
    Event.closeConsumer 30 ∉ (disconnect stOrphan 1).2.1 :=
  ⟨(consumer_close_ordering stReg 1).1 5 7 rfl trW (by decide),
   (consumer_close_ordering stOrphan 1).2 30⟩

/-- C5 (amended): both teardown triggers discover producers only via the
per-connection list: a global-directory entry whose id does not occur in
the per-connection list is neither closed nor removed, even if its
owning-connection tag matches the connection. -/
theorem teardown_uses_only_per_connection_list (st : ServerState) (s pid : Nat)
    (p : Producer) (hp : mapGet st.allProducers pid = some p)
    (hnot : ∀ q ∈ (mapGet st.producers s).getD [], q.id ≠ pid) :
    (∀ c u, resolveUserId st s = some u →
      mapGet (leaveVoiceChannel st s c).1.allProducers pid = some p ∧
      Event.closeProducer pid ∉ (leaveVoiceChannel st s c).2) ∧
    (mapGet (disconnect st s).1.allProducers pid = some p ∧
     Event.closeProducer pid ∉ (disconnect st s).2.1) := by
  constructor
  · intro c u hr
    constructor
    · rw [leave_allProducers st s c u hr]
      rw [leaveProducerLoop_preserves _ _ pid hnot]
      exact hp
    · intro hmem
      rcases leave_events_mem st s c u hr _ hmem with h1 | h1 | h1
      · obtain ⟨c2, p2, hce⟩ := leavePresence_events st u c _ h1
        cases hce
      · obtain ⟨q, hq, hqe⟩ := h1
        have : q.id = pid := by
          injection hqe with h2
          exact h2.symm
        exact hnot q hq this
      · rcases leaveTransportLoop_shape _ _ h1 with ⟨c2, hce⟩ | ⟨t2, hce⟩ <;> cases hce
  · constructor
    · rw [disc_allProducers]
      rw [disconnectProducers_preserves _ _ pid hnot]
      exact hp
    · intro hmem
      rcases disc_events_mem st s _ hmem with h1 | h1 | h1
      · obtain ⟨c2, p2, hce⟩ := disconnectPresence_events _ _ _ _ h1
        cases hce
      · obtain ⟨q, hq, hqe⟩ := disconnectProducers_events_shape _ _ _ h1
        have : q.id = pid := by
          injection hqe with h2
          exact h2.symm
        exact hnot q hq this
      · obtain ⟨t, _, hte⟩ := h1
        cases hte

theorem teardown_uses_only_per_connection_list_witness :
    mapGet (leaveVoiceChannel stOrphan 1 5).1.allProducers 10 = some prodW ∧
    Event.closeProducer 10 ∉ (disconnect stOrphan 1).2.1 :=
  ⟨((teardown_uses_only_per_connection_list stOrphan 1 10 prodW
      (by decide) (by decide)).1 5 7 rfl).1,
   (teardown_uses_only_per_connection_list stOrphan 1 10 prodW
      (by decide) (by decide)).2.2⟩

/-- C6 (amended): after a successful `produce` the returned id is in
`getProducers`; after a `leaveVoiceChannel` with resolvable identity, or
after a `disconnect` whose producer loop does not throw, every id in the
connection's per-connection list (which a successful produce appends to)
is absent from `getProducers`.  (An unregistered connection's partial
leave is a no-op and removes nothing — see the counterexample.) -/
theorem producer_directory_consistency (st : ServerState) (s : Nat) :
    (∀ tid pr tr,
      ((mapGet st.transports s).getD []).find? (fun t => t.id == tid) = some tr →
      (produce st s tid (EngineResult.ok pr)).2.1 = Response.ok pr.id ∧
      pr.id ∈ getProducers (produce st s tid (EngineResult.ok pr)).1) ∧
    (∀ c u, resolveUserId st s = some u →
      ∀ q ∈ (mapGet st.producers s).getD [],
        q.id ∉ getProducers (leaveVoiceChannel st s c).1) ∧
    ((∀ q ∈ (mapGet st.producers s).getD [], q.closeFails = false) →
      ∀ q ∈ (mapGet st.producers s).getD [],
        q.id ∉ getProducers (disconnect st s).1) := by
  refine ⟨?_, ?_, ?_⟩
  · intro tid pr tr hf
    obtain ⟨hresp, hap, _⟩ := produce_found_ok st s tid pr tr hf
    refine ⟨hresp, ?_⟩
    unfold getProducers
    rw [hap]
    apply mem_keys_of_mapGet_some _ pr.id ({ pr with socketId := s })
    exact mapGet_set_self st.allProducers pr.id { pr with socketId := s }
  · intro c u hr q hq
    unfold getProducers
    rw [leave_allProducers st s c u hr]
    exact not_mem_keys_of_mapGet_none _ q.id (leaveProducerLoop_deletes _ _ q hq)
  · intro hfail q hq
    unfold getProducers
    rw [disc_allProducers]
    exact not_mem_keys_of_mapGet_none _ q.id
      (disconnectProducers_deletes _ _ hfail q hq)

theorem producer_directory_consistency_witness :
    prodW2.id ∈ getProducers (produce stReg 1 20 (EngineResult.ok prodW2)).1 ∧
    prodW.id ∉ getProducers (leaveVoiceChannel stReg 1 5).1 :=
  ⟨((producer_directory_consistency stReg 1).1 20 prodW2 trW (by decide)).2,
   (producer_directory_consistency stReg 1).2.1 5 7 rfl prodW (by decide)⟩
